import Mathlib

/-
Verification of `scripts/batch_convert.py` (BRRtools batch WAV round-trip driver).

The script is embedded shallowly:

* External effects (the two `subprocess.run` calls, `os.remove`, `sleep`,
  filesystem queries) are abstracted into explicit inputs: an `Env` records the
  exit status / captured output of the encoder and decoder invocations for one
  file, whether the temporary `.brr` file exists afterwards, and which deletion
  attempts would succeed.
* `subprocess.run(..., check=True)` raising `CalledProcessError` is modelled by
  `Except CalledProcessError`.
* Paths are modelled as lists of components where only joining matters
  (`ConversionJob`), and as parsed Windows path values (`WinPath`) where the
  `pathlib` parsing/`resolve` semantics of `_windows_to_cygwin_path` matters.
* Python `str` helpers (`lower`, `strip`, `split`, substring `in`) are given
  explicit executable models over `List Char` (`pyLower`, `pyStrip`, ...),
  ASCII-faithful, which is the range exercised by the script.
-/

namespace BatchConvert

/-! ### Python string primitives, modelled over `List Char` -/

/-- Python `str.lower`, restricted to the basic-latin range (`Char.toLower`). -/
def pyLower (s : String) : String :=
  String.mk (s.data.map Char.toLower)

/-- The whitespace characters stripped by Python `str.strip()`. -/
def isPySpace (c : Char) : Bool :=
  c = ' ' || c = '\t' || c = '\n' || c = '\r' || c = '\x0b' || c = '\x0c'

/-- Python `str.strip()`: drop leading and trailing whitespace. -/
def pyStrip (s : String) : String :=
  String.mk (((s.data.dropWhile isPySpace).reverse.dropWhile isPySpace).reverse)

/-- Helper for `pySplitNL`: accumulate the current line (reversed) while scanning. -/
def splitLinesAux : List Char → List Char → List String
  | [], acc => [String.mk acc.reverse]
  | c :: rest, acc =>
    if c = '\n' then String.mk acc.reverse :: splitLinesAux rest []
    else splitLinesAux rest (c :: acc)

/-- Python split on newline (keeps empty pieces, never returns an empty list). -/
def pySplitNL (s : String) : List String :=
  splitLinesAux s.data []

/-- Helper for `containsSub`: does `sub` occur as a contiguous sublist? -/
def containsSubAux (sub : List Char) : List Char → Bool
  | [] => sub.isEmpty
  | c :: rest => sub.isPrefixOf (c :: rest) || containsSubAux sub rest

/-- Python `sub in s` substring test. -/
def containsSub (s sub : String) : Bool :=
  containsSubAux sub.data s.data

/-! ### `PurePath.stem` / `PurePath.suffix`

`pathlib` takes the extension from the last dot of the final component, unless
that dot is the first or the last character of the name. -/

/-- `(stem, suffix)` of a file name, mirroring `PurePath.stem`/`PurePath.suffix`. -/
def splitExt (name : String) : String × String :=
  let rev := name.data.reverse
  let pre := rev.takeWhile (fun c => c ≠ '.')
  match rev.dropWhile (fun c => c ≠ '.') with
  | [] => (name, "")
  | _ :: rest =>
    if rest ≠ [] ∧ pre ≠ [] then
      (String.mk rest.reverse, String.mk ('.' :: pre.reverse))
    else (name, "")

/-- `PurePath.stem`: the final component without its suffix. -/
def stem (name : String) : String := (splitExt name).1

/-- `PurePath.suffix`: the file extension of the final component. -/
def fileSuffix (name : String) : String := (splitExt name).2

example : stem "a.wav" = "a" ∧ fileSuffix "a.wav" = ".wav" := by decide
example : stem ".bashrc" = ".bashrc" ∧ fileSuffix ".bashrc" = "" := by decide
example : stem "a.WAV" = "a" ∧ fileSuffix "a.WAV" = ".WAV" := by decide

/-! ### Temp-artifact cleanup (`process_file`, lines 201-215)

```python
if tmp_brr.exists():
    retries = 0
    while retries < 6:
        try:
            retries += 1
            os.remove(tmp_brr)
            break
        except Exception as e_del:
            if retries < 6:
                sleep(0.05)
                continue
            print(f"Warning: ...", file=sys.stderr)
            break
```

`removeOk n` tells whether the `n`-th `os.remove` attempt (1-based, the value of
`retries` when the call is made) succeeds. Each `sleep` call is `sleep(0.05)`,
i.e. a fixed 50 ms delay; the model counts those calls. The loop guard
`retries < 6` is carried as `fuel = 6 - retries` to keep the recursion
structural; `cleanup` always enters with `retries = 0`, `fuel = 6`. -/

/-- Observable outcome of the deletion retry loop. -/
structure CleanupResult where
  /-- number of `os.remove` calls made -/
  attempts : Nat
  /-- whether the file was deleted -/
  deleted : Bool
  /-- whether the non-fatal warning was printed -/
  warned : Bool
  /-- number of `sleep(0.05)` calls made (each a 50 ms delay) -/
  sleeps : Nat
deriving DecidableEq

/-- One iteration of the retry loop, with `retries` attempts already made and
`fuel = 6 - retries` iterations allowed by the guard. -/
def cleanupLoop (removeOk : Nat → Bool) : Nat → Nat → CleanupResult
  | _, 0 => ⟨0, false, false, 0⟩
  | retries, fuel + 1 =>
    let r := retries + 1
    if removeOk r then ⟨1, true, false, 0⟩
    else if r < 6 then
      let rest := cleanupLoop removeOk r fuel
      ⟨rest.attempts + 1, rest.deleted, rest.warned, rest.sleeps + 1⟩
    else ⟨1, false, true, 0⟩

/-- The temp-file cleanup block: a no-op when the file does not exist, the
bounded retry loop otherwise. It never raises. -/
def cleanup (tmpExists : Bool) (removeOk : Nat → Bool) : CleanupResult :=
  if tmpExists then cleanupLoop removeOk 0 6 else ⟨0, false, false, 0⟩

example : cleanup true (fun _ => false) = ⟨6, false, true, 5⟩ := by decide
example : cleanup true (fun _ => true) = ⟨1, true, false, 0⟩ := by decide

/-! ### One conversion (`process_file`, lines 171-215) -/

/-- Exit status and captured output of one external tool invocation. -/
structure ExecResult where
  returncode : Int
  stdout : String
  stderr : String
deriving DecidableEq

/-- `subprocess.CalledProcessError` as raised by `subprocess.run(check=True)`. -/
structure CalledProcessError where
  returncode : Int
  stdout : String
  stderr : String
deriving DecidableEq

/-- `subprocess.run(argv, check=True, capture_output=True)`: raise on a
non-zero exit status, succeed otherwise. -/
def runChecked (r : ExecResult) : Except CalledProcessError Unit :=
  if r.returncode = 0 then .ok () else .error ⟨r.returncode, r.stdout, r.stderr⟩

/-- The external world for one `process_file` call: the outcome each tool
invocation would have, whether the temp file exists at the cleanup check, and
which deletion attempts would succeed. -/
structure Env where
  encodeRes : ExecResult
  decodeRes : ExecResult
  tmpExists : Bool
  removeOk : Nat → Bool

/-- Which externally visible steps one `process_file` call performed. -/
structure Trace where
  encodeRan : Bool
  decodeRan : Bool
  /-- `none` when the cleanup block was never reached (an exception propagated
  out of a tool invocation first). -/
  cleanupRes : Option CleanupResult
deriving DecidableEq

/-- `process_file`: run the encoder (checked), then the decoder (checked), then
the cleanup block. A `CalledProcessError` propagates immediately: the decoder
does not run after a failed encode, and the cleanup block is not reached. Both
platform branches of the source have this control flow; the commands they build
are modelled separately (`brr_encoder_cmd`, `windows_to_cygwin_path`). -/
def process_file (env : Env) : Except CalledProcessError Unit × Trace :=
  match runChecked env.encodeRes with
  | .error e => (.error e, ⟨true, false, none⟩)
  | .ok _ =>
    match runChecked env.decodeRes with
    | .error e => (.error e, ⟨true, true, none⟩)
    | .ok _ => (.ok (), ⟨true, true, some (cleanup env.tmpExists env.removeOk)⟩)

/-! ### The batch loop (`process_batch`, lines 24-54)

Every exception from `process_file` is caught (both `except` arms increment
`error_count` and `continue`); a success increments `success_count`. -/

/-- The loop of `process_batch`, carrying the two counters. -/
def process_batch_loop {α : Type} (pf : α → Except CalledProcessError Unit)
    (success_count error_count : Nat) : List α → Nat × Nat
  | [] => (success_count, error_count)
  | infile :: rest =>
    match pf infile with
    | .ok _ => process_batch_loop pf (success_count + 1) error_count rest
    | .error _ => process_batch_loop pf success_count (error_count + 1) rest

/-- `process_batch`: fold the loop over the discovered files, starting from
zero counters; returns `(success_count, error_count)`. -/
def process_batch {α : Type} (pf : α → Except CalledProcessError Unit)
    (infiles : List α) : Nat × Nat :=
  process_batch_loop pf 0 0 infiles

/-- `true` iff an `Except` result is a success. -/
def isOkB {ε α : Type} : Except ε α → Bool
  | .ok _ => true
  | .error _ => false

/-- An `Env` in which some tool invocation exits non-zero. -/
def toolFails (env : Env) : Bool :=
  !(env.encodeRes.returncode == 0 && env.decodeRes.returncode == 0)

example :
    process_batch (fun env => (process_file env).1)
      [⟨⟨0, "", ""⟩, ⟨0, "", ""⟩, true, fun _ => true⟩,
       ⟨⟨2, "boom", ""⟩, ⟨0, "", ""⟩, false, fun _ => true⟩,
       ⟨⟨0, "", ""⟩, ⟨0, "", ""⟩, true, fun _ => false⟩] = (2, 1) := by
  rfl

/-! ### Job paths (`process_file`, lines 148-150)

```python
in_wav = str(infile)
tmp_brr = self.outpath / (stem of infile + ".brr")
out_wav = self.outpath / infile.name
```

Directories and files are modelled as lists of path components; `dir / name`
is `dir ++ [name]`. -/

/-- The three paths of one conversion, matching the ConversionJob of the spec. -/
structure ConversionJob where
  in_wav : List String
  tmp_brr : List String
  out_wav : List String
deriving DecidableEq

/-- Lines 148-150: build the per-file paths from the input directory, the
output directory and the name of the input file. -/
def mkConversionJob (indir outpath : List String) (name : String) : ConversionJob :=
  ⟨indir ++ [name], outpath ++ [stem name ++ ".brr"], outpath ++ [name]⟩

/-- `p` is a direct child of directory `dir`. -/
def insideDir (dir p : List String) : Prop :=
  ∃ leaf : String, p = dir ++ [leaf]

/-- Render a component path as an absolute POSIX path string (the Unix branch
of `process_file` passes `str(...)` of these paths to the tools). -/
def renderPath (p : List String) : String :=
  "/" ++ String.intercalate "/" p

/-- The encoder argv of the Unix branch (lines 188-193):
`[brr_encoder, -sb<rate>, in_wav, tmp_brr]`. -/
def brr_encoder_cmd (bin : List String) (rate : Int) (j : ConversionJob) : List String :=
  [renderPath (bin ++ ["brr_encoder"]), "-sb" ++ toString rate,
   renderPath j.in_wav, renderPath j.tmp_brr]

/-- The decoder argv of the Unix branch (lines 194-199):
`[brr_decoder, -s<rate>, -g, tmp_brr, out_wav]`. -/
def brr_decoder_cmd (bin : List String) (rate : Int) (j : ConversionJob) : List String :=
  [renderPath (bin ++ ["brr_decoder"]), "-s" ++ toString rate, "-g",
   renderPath j.tmp_brr, renderPath j.out_wav]

/-! ### Windows → Cygwin path translation (`_windows_to_cygwin_path`, lines 217-235)

The source resolves the path, takes its parts, and when the first part has
length 3 with a colon as second character it returns the string
`/cygdrive/<lowercased drive letter>/<remaining parts joined by slashes>`;
otherwise it returns `str(path)` with every backslash replaced by a slash.

The method runs only on `sys.platform == "win32"`, so `Path` is `WindowsPath`.
A `WinPath` mirrors the parsed form of `PureWindowsPath` for non-UNC paths: an
optional two-character drive (`x:`), whether the path is rooted, and the
component list with empty and `.` components dropped. UNC (double-separator)
paths are outside this model and every theorem below excludes them.

`Path.resolve()` on Windows (no symlinks involved) makes the path absolute:
a rooted path without a drive is anchored to the drive of the current
working directory, a relative path is joined to the current working directory, and `..`
components are eliminated. The current working directory is passed explicitly
as `Cwd`. -/

/-- Is the character a Windows path separator? -/
def isSep (c : Char) : Bool :=
  c = '/' || c = '\\'

/-- Helper for `splitComps`: split on separators, accumulating the current
component in reverse. -/
def splitCompsAux : List Char → List Char → List String
  | [], acc => if acc.isEmpty then [] else [String.mk acc.reverse]
  | c :: rest, acc =>
    if isSep c then
      if acc.isEmpty then splitCompsAux rest []
      else String.mk acc.reverse :: splitCompsAux rest []
    else splitCompsAux rest (c :: acc)

/-- Path components: split on `/` and `\`, drop empty and `.` components, as
`PureWindowsPath` does. -/
def splitComps (cs : List Char) : List String :=
  (splitCompsAux cs []).filter (fun comp => comp ≠ ".")

/-- Does the character list start with a path separator? -/
def startsSep : List Char → Bool
  | [] => false
  | c :: _ => isSep c

/-- A parsed non-UNC Windows path. -/
structure WinPath where
  drive : Option String
  rooted : Bool
  comps : List String
deriving DecidableEq

/-- `PureWindowsPath(s)` for non-UNC `s`: a second character `:` makes the
first two characters the drive (as `ntpath.splitdrive` does). -/
def parseWinPath (s : String) : WinPath :=
  match s.data with
  | c :: ':' :: rest => ⟨some (String.mk [c, ':']), startsSep rest, splitComps rest⟩
  | cs => ⟨none, startsSep cs, splitComps cs⟩

/-- A UNC path starts with two separators; such paths are outside this model. -/
def isUNC (s : String) : Bool :=
  match s.data with
  | a :: b :: _ => isSep a && isSep b
  | _ => false

/-- Lexical `..` elimination performed by `resolve()` (no symlinks): a stack
fold where `..` pops the last component. -/
def elimDotDot (cs : List String) : List String :=
  List.foldl (fun acc comp => if comp = ".." then acc.dropLast else acc ++ [comp]) [] cs

/-- The current working directory on the Windows platform branch: a drive
letter plus components. -/
structure Cwd where
  driveLetter : Char
  comps : List String

/-- The drive string (`"C:"`) of the current working directory. -/
def Cwd.drive (cwd : Cwd) : String :=
  String.mk [cwd.driveLetter, ':']

/-- `Path.resolve()` on Windows for a parsed non-UNC path: attach the cwd
drive to driveless paths, join relative paths onto the cwd, eliminate `..`. -/
def resolveP (cwd : Cwd) (p : WinPath) : WinPath :=
  match p.drive, p.rooted with
  | some d, true => ⟨some d, true, elimDotDot p.comps⟩
  | none, true => ⟨some cwd.drive, true, elimDotDot p.comps⟩
  | some d, false =>
    if d = cwd.drive then ⟨some d, true, elimDotDot (cwd.comps ++ p.comps)⟩
    else ⟨some d, true, elimDotDot p.comps⟩
  | none, false => ⟨some cwd.drive, true, elimDotDot (cwd.comps ++ p.comps)⟩

/-- `PureWindowsPath.parts`: the anchor (drive plus root) forms the first
entry when present. -/
def pathParts (p : WinPath) : List String :=
  match p.drive, p.rooted with
  | some d, true => (d ++ "\\") :: p.comps
  | some d, false => d :: p.comps
  | none, true => "\\" :: p.comps
  | none, false => p.comps

/-- Python join-with-separator (as used with a slash and with a backslash), by recursion on the list. -/
def joinSep (sep : String) : List String → String
  | [] => ""
  | [x] => x
  | x :: y :: xs => x ++ sep ++ joinSep sep (y :: xs)

/-- `str()` of a parsed Windows path (backslash separators, `.` when empty
and relative). -/
def strWinPath (p : WinPath) : String :=
  match p.drive, p.rooted with
  | some d, true => d ++ "\\" ++ joinSep "\\" p.comps
  | some d, false => d ++ joinSep "\\" p.comps
  | none, true => "\\" ++ joinSep "\\" p.comps
  | none, false => if p.comps.isEmpty then "." else joinSep "\\" p.comps

/-- Python replace of backslash by slash applied to a whole string. -/
def replaceSlashes (s : String) : String :=
  String.mk (s.data.map (fun c => if c = '\\' then '/' else c))

/-- `_windows_to_cygwin_path` (lines 217-235), with the current working
directory (used by `resolve()`) passed explicitly. -/
def windows_to_cygwin_path (cwd : Cwd) (win_path : String) : String :=
  let path := resolveP cwd (parseWinPath win_path)
  let parts := pathParts path
  match parts with
  | [] => replaceSlashes (strWinPath path)
  | p0 :: rest =>
    if p0.length = 3 ∧ p0.data.get? 1 = some ':' then
      let drive := String.singleton (Char.toLower (p0.data.headD ' '))
      "/cygdrive/" ++ drive ++ "/" ++ joinSep "/" rest
    else replaceSlashes (strWinPath path)

example :
    windows_to_cygwin_path ⟨'C', []⟩ "C:\\Users\\file.wav" = "/cygdrive/c/Users/file.wav" := by
  decide

example :
    windows_to_cygwin_path ⟨'C', []⟩ "D:\\Music\\song.wav" = "/cygdrive/d/Music/song.wav" := by
  decide

/-! ### Input discovery and setup validation (lines 56-93 and 13-22)

Filesystem facts are passed in as explicit booleans and a directory listing.
Error messages are modelled by their fixed prefix, without the interpolated
path. -/

/-- One entry of the input directory listing (`dirpath.iterdir()`). -/
structure DirEntry where
  name : String
  isFile : Bool
deriving DecidableEq

/-- The filter of lines 62-63: regular file with case-insensitive extension
`.wav`. -/
def wavEntry (e : DirEntry) : Bool :=
  e.isFile && (pyLower (fileSuffix e.name) == ".wav")

/-- `get_infiles` (lines 56-69): `ValueError` when the input directory is
missing or no `.wav` files are found, otherwise the filtered listing in
directory order. -/
def get_infiles (indirIsDir : Bool) (entries : List DirEntry) :
    Except String (List DirEntry) :=
  if !indirIsDir then .error "Input directory does not exist"
  else
    let infiles := entries.filter wavEntry
    if infiles.isEmpty then .error "No .wav files found" else .ok infiles

/-- `get_outpath` (lines 71-81): create the output directory when absent
(after which it is a directory), fail when it exists as a non-directory. -/
def get_outpath (outExists outIsDir : Bool) : Except String Unit :=
  if !outExists then .ok ()
  else if !outIsDir then .error "Output path exists but is not a directory"
  else .ok ()

/-- `get_brrtools_bin` (lines 83-93): the tool directory and its `bin`
subdirectory must both exist. -/
def get_brrtools_bin (toolIsDir toolBinIsDir : Bool) : Except String Unit :=
  if !toolIsDir then .error "BRRtools directory does not exist"
  else if !toolBinIsDir then .error "BRRtools bin directory does not exist"
  else .ok ()

/-! ### Cygwin bash search (`_find_cygwin_bash`, lines 95-140) -/

/-- Outcome of the `subprocess.run(["where", "bash.exe"], check=False)` call:
either the call itself raised (caught by the bare `except`), or it ran and
produced an exit status and stdout. -/
inductive WhereRun
  | raised
  | ran (returncode : Int) (stdout : String)

/-- The external facts `_find_cygwin_bash` consults: the `CYGWIN_ROOT`
environment variable, file existence (keyed by the rendered Windows path
string, backslash-separated as `str(Path(...))` produces on win32), and the
`where bash.exe` outcome. -/
structure WinEnv where
  cygwinRoot : Option String
  pathExists : String → Bool
  whereBash : WhereRun

/-- The fixed remediation message of lines 135-140 (abbreviated to its first
line; the model never inspects its text). -/
def cygwinNotFoundMsg : String :=
  "Could not find Cygwin bash.exe."

/-- The two hardcoded conventional installation paths (lines 99-102), in their
win32 `str(Path(...))` rendering. -/
def possible_paths : List String :=
  ["C:\\cygwin64\\bin\\bash.exe", "C:\\cygwin\\bin\\bash.exe"]

/-- Lines 104-107: a configured `CYGWIN_ROOT` contributes
`<root>\bin\bash.exe` in front of the hardcoded paths. -/
def cygwin_candidates (env : WinEnv) : List String :=
  match env.cygwinRoot with
  | some root => (root ++ "\\bin\\bash.exe") :: possible_paths
  | none => possible_paths

/-- The acceptance test of the `where` loop body (lines 124-131): strip the
line, skip it when it mentions system32, accept it when it mentions cygwin and
exists. -/
def acceptable_where_loc (pathExists : String → Bool) (loc : String) : Bool :=
  !(containsSub (pyLower loc) "system32") &&
    (containsSub (pyLower loc) "cygwin" && pathExists loc)

/-- `_find_cygwin_bash` (lines 95-140): first existing standard candidate,
then the filtered `where bash.exe` search, then `FileNotFoundError`. -/
def find_cygwin_bash (env : WinEnv) : Except String String :=
  match (cygwin_candidates env).find? env.pathExists with
  | some bash_path => .ok bash_path
  | none =>
    match env.whereBash with
    | .raised => .error cygwinNotFoundMsg
    | .ran returncode stdout =>
      if returncode = 0 then
        match ((pySplitNL (pyStrip stdout)).map pyStrip).find?
            (acceptable_where_loc env.pathExists) with
        | some loc => .ok loc
        | none => .error cygwinNotFoundMsg
      else .error cygwinNotFoundMsg

/-! ### Startup and exit status (`BatchProcessor.__init__`, lines 13-22, and
the `__main__` block, lines 253-261) -/

/-- The filesystem and platform facts consulted during
`BatchProcessor.__init__`. -/
structure SetupInput where
  indirIsDir : Bool
  entries : List DirEntry
  outExists : Bool
  outIsDir : Bool
  toolIsDir : Bool
  toolBinIsDir : Bool
  isWin32 : Bool
  winEnv : WinEnv

/-- `BatchProcessor.__init__`: validate the input directory and listing, the
output directory, the tool directory, and on win32 locate Cygwin bash. The
first failure propagates; on success the discovered input files are retained. -/
def setup (s : SetupInput) : Except String (List DirEntry) := do
  let infiles ← get_infiles s.indirIsDir s.entries
  let _ ← get_outpath s.outExists s.outIsDir
  let _ ← get_brrtools_bin s.toolIsDir s.toolBinIsDir
  if s.isWin32 then
    let _ ← find_cygwin_bash s.winEnv
    pure infiles
  else
    pure infiles

/-- Observable outcome of one run of the `__main__` block. -/
structure MainResult where
  /-- the process exit status (`sys.exit(1)` on a caught fatal error, the
  implicit 0 otherwise) -/
  exitCode : Nat
  /-- how many discovered files the batch loop iterated over -/
  attempted : Nat
  succeeded : Nat
  failed : Nat
  /-- whether the FATAL ERROR message and traceback went to stderr -/
  fatalErrorPrinted : Bool
deriving DecidableEq

/-- The `__main__` block (lines 253-261): construct the processor and run the
batch inside one `try`; any exception prints the fatal diagnostic and exits
with status 1, and a completed batch exits with status 0. `process_batch`
itself never raises (both `except` arms of its loop continue), so after a
successful setup every discovered file is attempted. -/
def mainRun (s : SetupInput) (pf : DirEntry → Except CalledProcessError Unit) :
    MainResult :=
  match setup s with
  | .error _ => ⟨1, 0, 0, 0, true⟩
  | .ok infiles =>
    let counts := process_batch pf infiles
    ⟨0, infiles.length, counts.1, counts.2, false⟩

example :
    setup ⟨true, [⟨"a.wav", true⟩, ⟨"b.txt", true⟩], true, true, true, true, false,
      ⟨none, fun _ => false, .raised⟩⟩ = .ok [⟨"a.wav", true⟩] := by
  rfl

/-! ### Helper lemmas -/

/-- A `process_file` call succeeds exactly when both tool invocations exit
with status zero. -/
theorem process_file_isOk (env : Env) :
    isOkB (process_file env).1 = !toolFails env := by
  unfold process_file runChecked toolFails isOkB
  by_cases h1 : env.encodeRes.returncode = 0 <;>
    by_cases h2 : env.decodeRes.returncode = 0 <;>
      simp [h1, h2]

/-- The batch loop adds the number of per-item successes and failures to its
running counters; it never stops early. -/
theorem process_batch_loop_spec {α : Type} (pf : α → Except CalledProcessError Unit) :
    ∀ (files : List α) (s e : Nat),
      process_batch_loop pf s e files =
        (s + files.countP (fun f => isOkB (pf f)),
         e + files.countP (fun f => !isOkB (pf f))) := by
  intro files
  induction files with
  | nil => intro s e; simp [process_batch_loop]
  | cons f rest ih =>
    intro s e
    cases hpf : pf f with
    | ok v =>
      simp only [process_batch_loop, hpf, ih, List.countP_cons, isOkB, Prod.mk.injEq]
      constructor <;> simp <;> omega
    | error er =>
      simp only [process_batch_loop, hpf, ih, List.countP_cons, isOkB, Prod.mk.injEq]
      constructor <;> simp <;> omega

/-- Complementary counts add up to the length. -/
theorem countP_not_add_countP {α : Type} (p : α → Bool) (l : List α) :
    l.countP (fun a => !(p a)) + l.countP p = l.length := by
  induction l with
  | nil => simp
  | cons a l ih => by_cases h : p a <;> simp [List.countP_cons, h] <;> omega

/-- The retry loop makes at most `fuel` deletion attempts. -/
theorem cleanupLoop_attempts_le (removeOk : Nat → Bool) :
    ∀ fuel retries, (cleanupLoop removeOk retries fuel).attempts ≤ fuel := by
  intro fuel
  induction fuel with
  | zero => intro retries; simp [cleanupLoop]
  | succ fuel ih =>
    intro retries
    simp only [cleanupLoop]
    split
    · simp
    · split
      · simpa using Nat.succ_le_succ (ih (retries + 1))
      · simp

/-! ### Claims about the batch loop and per-item processing -/

/-- C1: in a batch of `N` discovered files of which exactly `K` have a failing
tool invocation, the loop catches every per-item failure, reaches the end of
the list, and finishes with `N - K` successes and `K` failures. -/
theorem batch_isolates_per_item_failures (envs : List Env) (N K : Nat)
    (hN : envs.length = N) (hK : envs.countP toolFails = K) :
    process_batch (fun env => (process_file env).1) envs = (N - K, K) ∧
    (process_batch (fun env => (process_file env).1) envs).1 +
      (process_batch (fun env => (process_file env).1) envs).2 = N := by
  have hloop := process_batch_loop_spec (fun env => (process_file env).1) envs 0 0
  have hok : (envs.countP fun env => isOkB (process_file env).1) =
      envs.countP (fun env => !toolFails env) :=
    List.countP_congr (fun env _ => by rw [process_file_isOk])
  have hfail : (envs.countP fun env => !isOkB (process_file env).1) =
      envs.countP toolFails :=
    List.countP_congr (fun env _ => by rw [process_file_isOk, Bool.not_not])
  have hcompl := countP_not_add_countP toolFails envs
  have hbatch : process_batch (fun env => (process_file env).1) envs =
      (envs.countP (fun env => !toolFails env), envs.countP toolFails) := by
    rw [process_batch, hloop, hok, hfail]
    simp
  rw [hbatch, hK]
  refine ⟨?_, by omega⟩
  have : envs.countP (fun env => !toolFails env) = N - K := by omega
  rw [this]

/-- A concrete three-item batch for the C1 witness: the second item has a
failing encoder, the others succeed. -/
def demoEnvs : List Env :=
  [⟨⟨0, "", ""⟩, ⟨0, "", ""⟩, true, fun _ => true⟩,
   ⟨⟨2, "", "err"⟩, ⟨0, "", ""⟩, false, fun _ => true⟩,
   ⟨⟨0, "", ""⟩, ⟨0, "", ""⟩, false, fun _ => true⟩]

/-- Witness for C1: the concrete three-file batch with one failing item
finishes with two successes and one failure. -/
theorem batch_isolates_per_item_failures_witness :
    process_batch (fun env => (process_file env).1) demoEnvs = (2, 1) :=
  (batch_isolates_per_item_failures demoEnvs 3 1 rfl rfl).1

/-- C4: a non-zero exit status of either stage raises `CalledProcessError`
immediately (with that stage's status and captured output), and after a failed
encode the decoder is not invoked (and the cleanup block is not reached). -/
theorem tool_failure_raises_immediately (env : Env) :
    (env.encodeRes.returncode ≠ 0 →
      process_file env =
        (.error ⟨env.encodeRes.returncode, env.encodeRes.stdout, env.encodeRes.stderr⟩,
         ⟨true, false, none⟩)) ∧
    (env.encodeRes.returncode = 0 → env.decodeRes.returncode ≠ 0 →
      process_file env =
        (.error ⟨env.decodeRes.returncode, env.decodeRes.stdout, env.decodeRes.stderr⟩,
         ⟨true, true, none⟩)) := by
  constructor
  · intro h
    simp [process_file, runChecked, h]
  · intro h1 h2
    simp [process_file, runChecked, h1, h2]

/-- Witness for C4: an encoder failing with status 2 (decoder skipped), and a
decoder failing with status 3 after a successful encode. -/
theorem tool_failure_raises_immediately_witness :
    process_file ⟨⟨2, "out", "err"⟩, ⟨0, "", ""⟩, true, fun _ => true⟩ =
      (.error ⟨2, "out", "err"⟩, ⟨true, false, none⟩) ∧
    process_file ⟨⟨0, "", ""⟩, ⟨3, "o2", "e2"⟩, true, fun _ => true⟩ =
      (.error ⟨3, "o2", "e2"⟩, ⟨true, true, none⟩) :=
  ⟨(tool_failure_raises_immediately _).1 (by decide),
   (tool_failure_raises_immediately _).2 rfl (by decide)⟩

/-- C5: cleanup of an existing temp file attempts deletion at most 6 times
with a 50 ms `sleep` between failed attempts; when every attempt fails it
warns, leaves the file, and raises nothing (the conversion still returns
success); when the file becomes deletable after 3 failed attempts, the 4th
attempt succeeds with no warning. -/
theorem cleanup_retry_policy :
    (∀ removeOk : Nat → Bool, (cleanup true removeOk).attempts ≤ 6) ∧
    cleanup true (fun _ => false) = ⟨6, false, true, 5⟩ ∧
    cleanup true (fun attempt => decide (4 ≤ attempt)) = ⟨4, true, false, 3⟩ ∧
    (∀ env : Env, env.encodeRes.returncode = 0 → env.decodeRes.returncode = 0 →
      (process_file env).1 = .ok ()) := by
  refine ⟨?_, by decide, by decide, ?_⟩
  · intro removeOk
    simpa [cleanup] using cleanupLoop_attempts_le removeOk 6 0
  · intro env h1 h2
    simp [process_file, runChecked, h1, h2]

/-- Witness for C5: with an always-locked temp file the cleanup stays within
its attempt bound and the conversion still reports success. -/
theorem cleanup_retry_policy_witness :
    (cleanup true (fun _ => false)).attempts ≤ 6 ∧
    (process_file ⟨⟨0, "", ""⟩, ⟨0, "", ""⟩, true, fun _ => false⟩).1 = .ok () :=
  ⟨cleanup_retry_policy.1 (fun _ => false),
   cleanup_retry_policy.2.2.2 ⟨⟨0, "", ""⟩, ⟨0, "", ""⟩, true, fun _ => false⟩ rfl rfl⟩

/-- C8: cleanup of a nonexistent temp file is a no-op: no deletion attempt,
no sleep, no warning, and (being a total function) no error. -/
theorem cleanup_nonexistent_noop (removeOk : Nat → Bool) :
    cleanup false removeOk = ⟨0, false, false, 0⟩ :=
  rfl

/-! ### Claims about job paths -/

/-- C2 counterexample: `a.wav` and `a.WAV` are two distinct files that are
both discovered by `get_infiles` (the extension filter lowercases), yet their
jobs get the same temp path, since both names have stem `a`. -/
theorem tmp_path_clash_counterexample :
    get_infiles true [⟨"a.wav", true⟩, ⟨"a.WAV", true⟩] =
      .ok [⟨"a.wav", true⟩, ⟨"a.WAV", true⟩] ∧
    (⟨"a.wav", true⟩ : DirEntry) ≠ ⟨"a.WAV", true⟩ ∧
    (mkConversionJob ["in"] ["out"] "a.wav").tmp_brr =
      (mkConversionJob ["in"] ["out"] "a.WAV").tmp_brr :=
  ⟨rfl, by decide, rfl⟩

/-- C2 (amended): jobs of input files with distinct stems get distinct temp
paths (the temp path is derived from the stem, so only stem-equal names
collide), and every temp path is a direct child of the output directory. -/
theorem tmp_path_unique_per_stem (indir outpath : List String) (n1 n2 : String)
    (h : stem n1 ≠ stem n2) :
    (mkConversionJob indir outpath n1).tmp_brr ≠
      (mkConversionJob indir outpath n2).tmp_brr ∧
    insideDir outpath (mkConversionJob indir outpath n1).tmp_brr := by
  constructor
  · intro heq
    apply h
    simp only [mkConversionJob, List.append_cancel_left_eq, List.cons.injEq, and_true] at heq
    have hdata := congrArg String.data heq
    simp only [String.data_append] at hdata
    have h2 : (stem n1).data = (stem n2).data := List.append_inj_left' hdata rfl
    exact congrArg String.mk h2
  · exact ⟨stem n1 ++ ".brr", rfl⟩

/-- Witness for C2 (amended): two names with different stems get different
temp paths inside the output directory. -/
theorem tmp_path_unique_per_stem_witness :
    (mkConversionJob ["in"] ["out"] "a.wav").tmp_brr ≠
      (mkConversionJob ["in"] ["out"] "b.wav").tmp_brr ∧
    insideDir ["out"] (mkConversionJob ["in"] ["out"] "a.wav").tmp_brr :=
  tmp_path_unique_per_stem ["in"] ["out"] "a.wav" "b.wav" (by decide)

/-- C10: with the output directory equal to the input directory, a job's
output path equals its input path, and the decoder command's final (output)
argument is exactly the input file's path — the decode stage overwrites the
source file in place. -/
theorem same_dir_overwrites_in_place (indir bin : List String) (rate : Int)
    (name : String) :
    (mkConversionJob indir indir name).out_wav = (mkConversionJob indir indir name).in_wav ∧
    (brr_decoder_cmd bin rate (mkConversionJob indir indir name)).getLast? =
      some (renderPath (mkConversionJob indir indir name).in_wav) :=
  ⟨rfl, rfl⟩

/-! ### Claims about setup, exit codes and the Cygwin bash search -/

/-- C7: when setup succeeds the process exits 0 after the batch, whatever the
per-file outcomes are; when setup fails the process exits 1 with the fatal
diagnostic printed and zero items attempted. -/
theorem exit_code_policy (s : SetupInput)
    (pf : DirEntry → Except CalledProcessError Unit) :
    (∀ infiles, setup s = .ok infiles → (mainRun s pf).exitCode = 0) ∧
    (∀ msg, setup s = .error msg → mainRun s pf = ⟨1, 0, 0, 0, true⟩) := by
  constructor
  · intro infiles h
    simp [mainRun, h]
  · intro msg h
    simp [mainRun, h]

/-- Witness for C7: a valid setup with an always-failing converter still exits
0; a missing input directory exits 1 before attempting any item. -/
theorem exit_code_policy_witness :
    (mainRun ⟨true, [⟨"a.wav", true⟩], false, true, true, true, false,
        ⟨none, fun _ => false, .raised⟩⟩ (fun _ => .error ⟨1, "", ""⟩)).exitCode = 0 ∧
    mainRun ⟨false, [], false, true, true, true, false, ⟨none, fun _ => false, .raised⟩⟩
        (fun _ => .error ⟨1, "", ""⟩) = ⟨1, 0, 0, 0, true⟩ :=
  ⟨(exit_code_policy _ _).1 [⟨"a.wav", true⟩] rfl,
   (exit_code_policy _ _).2 "Input directory does not exist" rfl⟩

/-- C9: with `CYGWIN_ROOT` set but no bash under it, the search does not fail
there: it behaves exactly as if the variable were unset (falling back to the
hardcoded paths and the `where` search), and it reports the not-found error
only once the hardcoded paths and the `where` search are exhausted too. -/
theorem cygwin_root_fallback (env : WinEnv) (root : String)
    (h1 : env.cygwinRoot = some root)
    (h2 : env.pathExists (root ++ "\\bin\\bash.exe") = false) :
    find_cygwin_bash env = find_cygwin_bash ⟨none, env.pathExists, env.whereBash⟩ ∧
    (env.pathExists "C:\\cygwin64\\bin\\bash.exe" = false →
      env.pathExists "C:\\cygwin\\bin\\bash.exe" = false →
      env.whereBash = .raised →
      find_cygwin_bash env = .error cygwinNotFoundMsg) := by
  obtain ⟨cr, pe, wb⟩ := env
  simp only at h1 h2
  subst h1
  constructor
  · simp [find_cygwin_bash, cygwin_candidates, List.find?, h2]
  · intro h3 h4 h5
    simp only at h3 h4 h5
    subst h5
    simp [find_cygwin_bash, cygwin_candidates, possible_paths, List.find?, h2, h3, h4]

/-- Witness for C9: a configured root without bash, nonexistent hardcoded
paths and a raising `where` lookup fall through to the not-found error, the
same result as with the variable unset. -/
theorem cygwin_root_fallback_witness :
    find_cygwin_bash ⟨some "D:\\cyg", fun _ => false, .raised⟩ =
      find_cygwin_bash ⟨none, fun _ => false, .raised⟩ ∧
    find_cygwin_bash ⟨some "D:\\cyg", fun _ => false, .raised⟩ =
      .error cygwinNotFoundMsg := by
  have h := cygwin_root_fallback ⟨some "D:\\cyg", fun _ => false, .raised⟩ "D:\\cyg" rfl rfl
  exact ⟨h.1, h.2 rfl rfl rfl⟩

/-! ### Claims about the path translation -/

/-- Lowercasing an ASCII letter never yields a backslash. -/
theorem toLower_ne_backslash {c : Char} (h : c.isAlpha = true) :
    Char.toLower c ≠ '\\' := by
  intro heq
  by_cases hup : c.toNat ≥ 65 ∧ c.toNat ≤ 90
  · have hvalid : (c.toNat + 32).isValidChar := Or.inl (by omega)
    have hlow : Char.toLower c = Char.ofNat (c.toNat + 32) := by
      simp only [Char.toLower]
      rw [if_pos hup]
    have hval : (Char.ofNat (c.toNat + 32)).toNat = c.toNat + 32 := by
      rw [Char.ofNat, dif_pos hvalid]
      rfl
    have h92 := congrArg Char.toNat (hlow ▸ heq)
    rw [hval] at h92
    have : ('\\' : Char).toNat = 92 := rfl
    omega
  · have hlow : Char.toLower c = c := by
      simp only [Char.toLower]
      rw [if_neg hup]
    rw [hlow] at heq
    subst heq
    exact absurd h (by decide)

/-- Every component produced by `splitCompsAux` is separator-free, provided
the accumulator is. -/
theorem splitCompsAux_no_sep :
    ∀ (cs acc : List Char), (∀ a ∈ acc, isSep a = false) →
      ∀ x ∈ splitCompsAux cs acc, ∀ ch ∈ x.data, isSep ch = false := by
  intro cs
  induction cs with
  | nil =>
    intro acc hacc x hx ch hch
    simp only [splitCompsAux] at hx
    by_cases hemp : acc.isEmpty = true
    · rw [if_pos hemp] at hx
      cases hx
    · rw [if_neg hemp] at hx
      rw [List.mem_singleton] at hx
      subst hx
      exact hacc ch (List.mem_reverse.1 hch)
  | cons c rest ih =>
    intro acc hacc x hx ch hch
    simp only [splitCompsAux] at hx
    by_cases hsep : isSep c = true
    · rw [if_pos hsep] at hx
      by_cases hemp : acc.isEmpty = true
      · rw [if_pos hemp] at hx
        exact ih [] (by simp) x hx ch hch
      · rw [if_neg hemp] at hx
        rcases List.mem_cons.1 hx with hx | hx
        · subst hx
          exact hacc ch (List.mem_reverse.1 hch)
        · exact ih [] (by simp) x hx ch hch
    · rw [if_neg hsep] at hx
      refine ih (c :: acc) ?_ x hx ch hch
      intro a ha
      rcases List.mem_cons.1 ha with ha | ha
      · subst ha
        simpa using hsep
      · exact hacc a ha

/-- Every component produced by `splitComps` is separator-free. -/
theorem splitComps_no_sep (cs : List Char) :
    ∀ x ∈ splitComps cs, ∀ ch ∈ x.data, isSep ch = false := by
  intro x hx
  exact splitCompsAux_no_sep cs [] (by simp) x (List.mem_of_mem_filter hx)

/-- Every component of a parsed path is separator-free. -/
theorem parseWinPath_comps_no_sep (s : String) :
    ∀ x ∈ (parseWinPath s).comps, ∀ ch ∈ x.data, isSep ch = false := by
  unfold parseWinPath
  split
  · exact fun x hx => splitComps_no_sep _ x hx
  · exact fun x hx => splitComps_no_sep _ x hx

/-- Elements surviving the `..`-elimination fold come from the accumulator or
the input. -/
theorem elimDotDot_foldl_mem :
    ∀ (cs acc : List String) (x : String),
      x ∈ List.foldl
        (fun acc2 comp => if comp = ".." then acc2.dropLast else acc2 ++ [comp]) acc cs →
      x ∈ acc ∨ x ∈ cs := by
  intro cs
  induction cs with
  | nil =>
    intro acc x hx
    exact .inl hx
  | cons c rest ih =>
    intro acc x hx
    simp only [List.foldl_cons] at hx
    rcases ih _ x hx with h | h
    · by_cases hc : c = ".."
      · rw [if_pos hc] at h
        exact .inl (List.dropLast_subset _ h)
      · rw [if_neg hc] at h
        rcases List.mem_append.1 h with h | h
        · exact .inl h
        · right
          simp only [List.mem_singleton] at h
          simp [h]
    · exact .inr (List.mem_cons_of_mem _ h)

/-- `elimDotDot` only keeps components of its input. -/
theorem elimDotDot_mem {cs : List String} {x : String} (hx : x ∈ elimDotDot cs) :
    x ∈ cs := by
  rcases elimDotDot_foldl_mem cs [] x hx with h | h
  · cases h
  · exact h

/-- Joining backslash-free components with slashes yields a backslash-free
string. -/
theorem joinSep_slash_no_backslash :
    ∀ l : List String, (∀ x ∈ l, '\\' ∉ x.data) → '\\' ∉ (joinSep "/" l).data := by
  intro l
  induction l with
  | nil =>
    intro _ hmem
    cases hmem
  | cons x xs ih =>
    intro h
    cases xs with
    | nil =>
      simpa [joinSep] using h x (by simp)
    | cons y ys =>
      simp only [joinSep, String.data_append]
      intro hmem
      rcases List.mem_append.1 hmem with hm | hm
      · rcases List.mem_append.1 hm with hm2 | hm2
        · exact h x (by simp) hm2
        · exact absurd hm2 (by decide)
      · exact ih (fun z hz => h z (List.mem_cons_of_mem _ hz)) hm

/-- A separator-free component list is in particular backslash-free. -/
theorem no_sep_no_backslash {x : String}
    (h : ∀ ch ∈ x.data, isSep ch = false) : '\\' ∉ x.data := by
  intro hmem
  have := h '\\' hmem
  simp [isSep] at this

/-- C3 counterexample: translating an already-translated mount-prefix path a
second time changes it again (with the cwd on drive C, each application
prepends the mount prefix and drive anew), so the translation is not
idempotent on compatibility-style paths. -/
theorem translate_not_idempotent :
    windows_to_cygwin_path ⟨'C', []⟩
        (windows_to_cygwin_path ⟨'C', []⟩ "/cygdrive/c/Users/file.wav") ≠
      windows_to_cygwin_path ⟨'C', []⟩ "/cygdrive/c/Users/file.wav" := by
  decide

/-- C3 (amended): the translation is deterministic (equal outputs on equal
inputs, the cwd being part of the input), but on an already-translated
compatibility-style path (rooted, driveless, non-UNC) it is not idempotent:
`resolve()` anchors the rooted path to the cwd drive, so each application
prepends the mount prefix and the lowercased cwd drive letter again. -/
theorem translate_deterministic_reprefix (cwd : Cwd) (p : String) (cs : List String)
    (hp : parseWinPath p = ⟨none, true, cs⟩) (hunc : isUNC p = false) :
    windows_to_cygwin_path cwd p = windows_to_cygwin_path cwd p ∧
    windows_to_cygwin_path cwd p =
      "/cygdrive/" ++ String.singleton (Char.toLower cwd.driveLetter) ++ "/" ++
        joinSep "/" (elimDotDot cs) := by
  refine ⟨rfl, ?_⟩
  unfold windows_to_cygwin_path
  rw [hp]
  rfl

/-- Witness for C3 (amended): the compatibility-style path from the
counterexample, translated under a cwd on drive C. -/
theorem translate_deterministic_reprefix_witness :
    windows_to_cygwin_path ⟨'C', []⟩ "/cygdrive/c/Users/file.wav" =
      windows_to_cygwin_path ⟨'C', []⟩ "/cygdrive/c/Users/file.wav" ∧
    windows_to_cygwin_path ⟨'C', []⟩ "/cygdrive/c/Users/file.wav" =
      "/cygdrive/" ++ String.singleton (Char.toLower 'C') ++ "/" ++
        joinSep "/" (elimDotDot ["cygdrive", "c", "Users", "file.wav"]) :=
  translate_deterministic_reprefix ⟨'C', []⟩ "/cygdrive/c/Users/file.wav"
    ["cygdrive", "c", "Users", "file.wav"] (by decide) (by decide)

/-- C6: for an absolute path whose first component is a drive letter (a
single ASCII letter plus a colon), the translation is the mount prefix, the
lowercased drive letter, and the remaining components joined by slashes — in
particular it starts with the mount-prefix segment followed by the lowercased
drive letter and contains no backslash. -/
theorem drive_path_translation (cwd : Cwd) (p : String) (c : Char) (cs : List String)
    (hp : parseWinPath p = ⟨some (String.mk [c, ':']), true, cs⟩)
    (hc : c.isAlpha = true) :
    windows_to_cygwin_path cwd p =
      "/cygdrive/" ++ String.singleton (Char.toLower c) ++ "/" ++
        joinSep "/" (elimDotDot cs) ∧
    '\\' ∉ (windows_to_cygwin_path cwd p).data := by
  have heq : windows_to_cygwin_path cwd p =
      "/cygdrive/" ++ String.singleton (Char.toLower c) ++ "/" ++
        joinSep "/" (elimDotDot cs) := by
    unfold windows_to_cygwin_path
    rw [hp]
    rfl
  refine ⟨heq, ?_⟩
  rw [heq]
  have hdata : ("/cygdrive/" ++ String.singleton (Char.toLower c) ++ "/" ++
      joinSep "/" (elimDotDot cs)).data =
      "/cygdrive/".data ++ [Char.toLower c] ++ ['/'] ++ (joinSep "/" (elimDotDot cs)).data :=
    rfl
  rw [hdata]
  intro hmem
  rcases List.mem_append.1 hmem with hm | hm
  · rcases List.mem_append.1 hm with hm2 | hm2
    · rcases List.mem_append.1 hm2 with hm3 | hm3
      · revert hm3
        decide
      · simp only [List.mem_singleton] at hm3
        exact toLower_ne_backslash hc hm3.symm
    · simp at hm2
  · have hcomps : ∀ x ∈ elimDotDot cs, '\\' ∉ x.data := by
      intro x hx
      refine no_sep_no_backslash ?_
      intro ch hch
      refine parseWinPath_comps_no_sep p x ?_ ch hch
      rw [hp]
      exact elimDotDot_mem hx
    exact joinSep_slash_no_backslash (elimDotDot cs) hcomps hm

/-- Witness for C6: a concrete drive-letter path translates to the
mount-prefix form with no backslash. -/
theorem drive_path_translation_witness :
    windows_to_cygwin_path ⟨'C', []⟩ "D:\\Music\\song.wav" =
      "/cygdrive/" ++ String.singleton (Char.toLower 'D') ++ "/" ++
        joinSep "/" (elimDotDot ["Music", "song.wav"]) ∧
    '\\' ∉ (windows_to_cygwin_path ⟨'C', []⟩ "D:\\Music\\song.wav").data :=
  drive_path_translation ⟨'C', []⟩ "D:\\Music\\song.wav" 'D' ["Music", "song.wav"]
    (by decide) (by decide)

end BatchConvert
